import Mathlib

/-!
# Verification of the brokkr lifecycle orchestrator (`brokkr.go`)

A shallow embedding of `brokkr.go` (package `brokkr`): the `Brokkr`
structure, its construction options, `Stop`, and the concurrent
behaviour of `Start` (an `errgroup`-based supervisor spawning, per
background task, one start goroutine and one stop goroutine, plus one
coordination goroutine bridging OS signals and context cancellation).

Concurrency is embedded by making the scheduler explicit: a run of
`Start` is parameterised by the tasks' behaviours (what each `OnStart` /
`OnStop` call returns, whether UUID generation succeeds), by the
shutdown trigger, and by the completion order of the spawned goroutines.
`errgroup.Group.Wait` returns the error of the first goroutine to return
a non-nil error (later errors are discarded, and that first error also
cancels the group context); this is modelled by taking the first
non-`none` result along the completion order.
-/

/-- Go `error` values relevant to `brokkr.go`.  `custom id wrapsCanceled`
stands for an arbitrary task-produced error; `wrapsCanceled` records
whether `errors.Is(err, context.Canceled)` holds for it (an error can
wrap `context.Canceled`). -/
inductive GoErr where
  | canceled
  | deadlineExceeded
  | uuidFailure
  | custom (id : Nat) (wrapsCanceled : Bool)
deriving DecidableEq, Repr

/-- `errors.Is(err, context.Canceled)` on the embedded error values. -/
def errorsIsCanceled : GoErr → Bool
  | .canceled => true
  | .custom _ w => w
  | _ => false

/-- Modelled from the spec: the `background.Process` task contract
(`component/background` is not under `src/`), §4.1 of the spec: a task
has `name()`, `onStart`, `onStop` and `isCritical()`.  The behaviour of
one `Start` run is recorded extensionally: `startErr` is what this run's
`OnStart(ctx)` call returns, `stopErr` what its `OnStop(ctx)` call
returns (`none` = nil), and `uuidOk` whether `uuid.NewUUID()` succeeds
in this task's stop goroutine. -/
structure TaskSpec where
  name : String
  critical : Bool
  startErr : Option GoErr
  stopErr : Option GoErr
  uuidOk : Bool
deriving DecidableEq, Repr

/-- Modelled from the spec: `background.IsCriticalToStop`
(`component/background` is not under `src/`) reports the task's
`isCritical()` capability (spec §4.1). -/
def IsCriticalToStop (t : TaskSpec) : Bool := t.critical

/-- OS signals used by `brokkr.go` (`syscall.SIGTERM`, `SIGQUIT`,
`SIGINT`). -/
inductive Sig where
  | SIGTERM
  | SIGQUIT
  | SIGINT
deriving DecidableEq, Repr

/-- One second, in nanoseconds (`time.Second`). -/
def timeSecond : Nat := 1000000000

/-- The `Brokkr` structure of `brokkr.go`.  `mainCtxInitialized` models
`mainContextCancel != nil` (set by `NewBrokkr`), `mainCtxCancelled` the
cancellation state of `mainContext`.  Durations are nanoseconds. -/
structure Brokkr where
  signals : List Sig
  stopTimeout : Nat
  backgroundTasks : List TaskSpec
  mainCtxInitialized : Bool
  mainCtxCancelled : Bool
deriving DecidableEq, Repr

/-- `Options` of `brokkr.go`: a function mutating the `Brokkr` under
construction. -/
def Options := Brokkr → Brokkr

/-- `SetForceStopTimeout` of `brokkr.go`: redefines the force-shutdown
timeout. -/
def SetForceStopTimeout (t : Nat) : Options := fun c => { c with stopTimeout := t }

/-- `AddBackgroundTasks` of `brokkr.go`: appends tasks to the managed
set. -/
def AddBackgroundTasks (bt : List TaskSpec) : Options := fun c =>
  { c with backgroundTasks := c.backgroundTasks ++ bt }

/-- `NewBrokkr` of `brokkr.go`: default signal set
`[SIGTERM, SIGQUIT, SIGINT]`, default `stopTimeout` of 60 seconds, a
fresh cancellable main context, then the options applied in order. -/
def NewBrokkr (opts : List Options) : Brokkr :=
  opts.foldl (fun b o => o b)
    { signals := [.SIGTERM, .SIGQUIT, .SIGINT]
      stopTimeout := 60 * timeSecond
      backgroundTasks := []
      mainCtxInitialized := true
      mainCtxCancelled := false }

/-- `Stop` of `brokkr.go`: if `mainContextCancel != nil` it cancels the
main context; it always returns nil.  Cancelling an already-cancelled
Go context is a documented no-op, so cancellation is modelled as setting
the flag. -/
def Brokkr.Stop (c : Brokkr) : Brokkr × Option GoErr :=
  (if c.mainCtxInitialized then { c with mainCtxCancelled := true } else c, none)

/-! ## The concurrent `Start` run

`Start` spawns, for each of the `n` tasks, a stop goroutine and a start
goroutine, plus one coordination goroutine (the "main loop"), and
returns `TaskErrorGroup.Wait()` filtered through
`errors.Is(err, context.Canceled)`. -/

/-- How shutdown is triggered from outside the task set: an OS signal
delivered to the registered channel, an explicit `Stop()` call by the
caller, or no external trigger at all (shutdown, if any, comes from a
critical start failure cancelling the group context). -/
inductive Trigger where
  | signalled
  | explicitStop
  | noExternal
deriving DecidableEq, Repr

/-- Identifier of one goroutine spawned by `Start`: the start goroutine
of task `i`, the stop goroutine of task `i`, or the coordination
goroutine. -/
inductive UnitId where
  | startU (i : Nat)
  | stopU (i : Nat)
  | coordU
deriving DecidableEq, Repr

/-- A schedule of one `Start` run: the order in which the spawned
goroutines return to the error group, and, when an OS signal and
cancellation race in the coordination goroutine's `select`, which branch
it takes (`coordSawSignal = true` means the `interruptSignal` branch,
which calls `c.Stop()` and returns its nil result). -/
structure Sched where
  order : List UnitId
  coordSawSignal : Bool
deriving DecidableEq, Repr

/-- Value returned to the error group by the start goroutine of task
`t` (lines 121–130 of `brokkr.go`): `task.OnStart(ctx)`'s error is
returned iff it is non-nil and `background.IsCriticalToStop(task)`
holds; otherwise the goroutine returns nil. -/
def startUnitResult (t : TaskSpec) : Option GoErr :=
  match t.startErr with
  | some e => if IsCriticalToStop t then some e else none
  | none => none

/-- Value returned to the error group by the stop goroutine of task `t`
(lines 101–116 of `brokkr.go`): after `<-ctx.Done()`, a failing
`uuid.NewUUID()` makes it return the wrapping error without calling
`OnStop`; otherwise it returns `task.OnStop(taskStopCtx)`'s error. -/
def stopUnitResult (t : TaskSpec) : Option GoErr :=
  if t.uuidOk then t.stopErr else some .uuidFailure

/-- Names of the tasks whose `OnStop` the stop goroutine of `t` invokes
(lines 104–115 of `brokkr.go`): `task.OnStop` is called exactly once,
unless `uuid.NewUUID()` failed, in which case the goroutine returns
early and `OnStop` is never called. -/
def stopUnitInvokes (t : TaskSpec) : List String :=
  if t.uuidOk then [t.name] else []

/-- Value returned to the error group by the coordination goroutine
(lines 137–148 of `brokkr.go`): on the signal branch it returns
`c.Stop()`, which is nil; on the `ctx.Done()` branch it returns
`ctx.Err()`, which for the cancel-derived group context is always
`context.Canceled`. -/
def coordUnitResult (s : Sched) : Option GoErr :=
  if s.coordSawSignal then none else some .canceled

/-- `startUnitResult` looked up by task index. -/
def startUnitResultAt (tasks : List TaskSpec) (i : Nat) : Option GoErr :=
  match tasks[i]? with
  | some t => startUnitResult t
  | none => none

/-- `stopUnitResult` looked up by task index. -/
def stopUnitResultAt (tasks : List TaskSpec) (i : Nat) : Option GoErr :=
  match tasks[i]? with
  | some t => stopUnitResult t
  | none => none

/-- Value the given goroutine returns to the error group. -/
def unitResult (tasks : List TaskSpec) (s : Sched) : UnitId → Option GoErr
  | .startU i => startUnitResultAt tasks i
  | .stopU i => stopUnitResultAt tasks i
  | .coordU => coordUnitResult s

/-- `TaskErrorGroup.Wait()`: `errgroup` records the error of the first
goroutine to return a non-nil error and discards all later ones, so the
wait result is the first non-`none` goroutine result in completion
order. -/
def waitResult (tasks : List TaskSpec) (s : Sched) : Option GoErr :=
  (s.order.filterMap (unitResult tasks s)).head?

/-- The value `Start()` returns (lines 150–156 of `brokkr.go`): the
wait result if it is non-nil and not `errors.Is(·, context.Canceled)`,
otherwise nil. -/
def startReturn (tasks : List TaskSpec) (s : Sched) : Option GoErr :=
  match waitResult tasks s with
  | some e => if errorsIsCanceled e then none else some e
  | none => none

/-- Whether the shared cancellation signal (the group context's `Done`)
fires during the run: either an external trigger cancels the main
context (signal → `Stop()`, or an explicit `Stop()`), or some start
goroutine returns a non-nil error and `errgroup` cancels the group
context. -/
def cancelRequested (tasks : List TaskSpec) (trigger : Trigger) : Bool :=
  trigger != Trigger.noExternal || tasks.any (fun t => (startUnitResult t).isSome)

/-- Whether a goroutine blocks on the shared cancellation signal before
doing its work: stop goroutines (`<-ctx.Done()`) and the coordination
goroutine do, start goroutines do not. -/
def isWaiter : UnitId → Bool
  | .startU _ => false
  | _ => true

/-- Causality of a completion order when no external trigger cancels the
main context: a waiting goroutine (stop or coordination) can only
complete after the group context was cancelled, i.e. after some start
goroutine has already returned a non-nil error.  `unblocked` records
whether such a start goroutine has returned in the prefix already
consumed. -/
def causalFrom (tasks : List TaskSpec) : Bool → List UnitId → Bool
  | _, [] => true
  | unblocked, u :: rest =>
    (!(isWaiter u) || unblocked) &&
      causalFrom tasks
        (unblocked || (match u with
          | .startU i => (startUnitResultAt tasks i).isSome
          | _ => false)) rest

/-- A completion order realisable without any external trigger. -/
def causalOrder (tasks : List TaskSpec) (order : List UnitId) : Bool :=
  causalFrom tasks false order

/-- The names of the tasks whose `OnStop` is invoked over the whole run,
with multiplicity: nothing if the shared cancellation signal never
fires (every stop goroutine stays blocked on `<-ctx.Done()`); otherwise
each stop goroutine contributes `stopUnitInvokes`. -/
def runInvoked (tasks : List TaskSpec) (trigger : Trigger) : List String :=
  if cancelRequested tasks trigger then tasks.flatMap stopUnitInvokes else []

/-! ## The per-task stop context

The stop goroutine of a task builds
`context.WithTimeout(c.createChildContext(uuid, t.GetName()), c.stopTimeout)`
once the shared cancellation signal fires.  Two aspects are embedded:
which name the child context carries, and what its `Err()` reports over
time. -/

/-- `createChildContext` of `brokkr.go`: a context derived from
`c.mainContext` carrying the pair (key, value).  Only the value (the
task name) matters to the claims; the key is the fresh UUID string. -/
def createChildContext (key value : String) : String × String := (key, value)

/-- The name argument the stop goroutine passes to `createChildContext`
(line 110 of `brokkr.go`): the call is `t.GetName()` on the `range`
loop variable `t`, not on the per-iteration copy `task` used everywhere
else in the closure.  The repository builds on Go 1.20/1.21 (per
`.github/workflows/ci.yml`), where the `range` variable is a single
variable shared by all iterations and captured by reference; the stop
goroutine reads it only after `<-ctx.Done()`, i.e. after the
registration loop has completed, when it holds the last task of the
list. -/
def stopCtxNameOf (tasks : List TaskSpec) : Option String :=
  (tasks.getLast?).map (fun lv => lv.name)

/-- Per-task view of the stop contexts of a run in which the
registration loop completed before cancellation fired: each entry pairs
a task's own name with the name carried by the stop context its
`OnStop` receives. -/
def runStopCtxNames (tasks : List TaskSpec) : List (String × String) :=
  match stopCtxNameOf tasks with
  | some nm => tasks.map (fun t => (t.name, nm))
  | none => []

/-- `Err()` at time `t` of a Go context with deadline `deadline` whose
parent is cancelled at `cancelTime` (if ever): the context settles on
the first of the two events.  A context derived from an
already-cancelled parent is born cancelled.  (A tie is resolved towards
cancellation; the claims only use it with the two events apart.) -/
def ctxErrAt (cancelTime : Option Nat) (deadline t : Nat) : Option GoErr :=
  match cancelTime with
  | some tc =>
    if tc ≤ t ∧ tc ≤ deadline then some .canceled
    else if deadline ≤ t then some .deadlineExceeded
    else none
  | none => if deadline ≤ t then some .deadlineExceeded else none

/-- When `c.mainContext` gets cancelled, by trigger: an OS signal makes
the coordination goroutine call `c.Stop()` and an explicit `Stop()` is
that same call, both cancelling the main context at trigger time
`cancelTime`; with no external trigger only the *group* context (a
child) is cancelled by `errgroup`, and the main context never is. -/
def mainCancelTimeOf : Trigger → Nat → Option Nat
  | .noExternal, _ => none
  | _, tc => some tc

/-- `Err()` at time `t` of the stop context a task's `OnStop` receives:
`WithTimeout` over a child of `c.mainContext`, created at `obsTime`
(the moment the stop goroutine observes cancellation) with deadline
`obsTime + stopTimeout`, where the main context itself was cancelled at
`cancelTime` for externally-triggered shutdowns. -/
def stopCtxErr (trigger : Trigger) (cancelTime obsTime stopTimeout t : Nat) : Option GoErr :=
  ctxErrAt (mainCancelTimeOf trigger cancelTime) (obsTime + stopTimeout) t

/-- The deadline carried by the stop context (line 109–112 of
`brokkr.go`): `stopTimeout` from the moment the stop goroutine observed
cancellation. -/
def stopCtxDeadline (obsTime stopTimeout : Nat) : Nat := obsTime + stopTimeout

/-! ## Helper lemmas -/

/-- A non-nil wait result is the result of some goroutine of the run. -/
theorem exists_unit_of_waitResult {tasks : List TaskSpec} {s : Sched} {e : GoErr}
    (h : waitResult tasks s = some e) :
    ∃ u ∈ s.order, unitResult tasks s u = some e := by
  unfold waitResult at h
  have hmem : e ∈ s.order.filterMap (unitResult tasks s) :=
    List.mem_of_mem_head? (Option.mem_def.mpr h)
  exact List.mem_filterMap.mp hmem

/-- If every goroutine's non-nil result is a cancellation error, the
filtered `Start` result is nil. -/
theorem startReturn_none_of_all_canceled {tasks : List TaskSpec} {s : Sched}
    (h : ∀ u ∈ s.order, ∀ e, unitResult tasks s u = some e → errorsIsCanceled e = true) :
    startReturn tasks s = none := by
  unfold startReturn
  cases hw : waitResult tasks s with
  | none => rfl
  | some e =>
    rcases exists_unit_of_waitResult hw with ⟨u, hu, hue⟩
    simp [h u hu e hue]

/-- In a causal completion order with a single erroring start goroutine
`startU i` (no external trigger), the first non-nil goroutine result is
that goroutine's error: waiters cannot precede it, and the other start
goroutines return nil. -/
theorem head_filterMap_of_unique (tasks : List TaskSpec) (s : Sched) (i : Nat) (E : GoErr)
    (hres : startUnitResultAt tasks i = some E)
    (hothers : ∀ j, j ≠ i → startUnitResultAt tasks j = none) :
    ∀ order : List UnitId, UnitId.startU i ∈ order →
      causalFrom tasks false order = true →
      (order.filterMap (unitResult tasks s)).head? = some E := by
  intro order
  induction order with
  | nil => intro hmem _; exact absurd hmem (List.not_mem_nil _)
  | cons u rest ih =>
    intro hmem hc
    unfold causalFrom at hc
    rw [Bool.and_eq_true] at hc
    obtain ⟨hc1, hc2⟩ := hc
    cases u with
    | startU j =>
      by_cases hj : j = i
      · subst hj
        simp [List.filterMap_cons, unitResult, hres]
      · have hnone : startUnitResultAt tasks j = none := hothers j hj
        have hmem' : UnitId.startU i ∈ rest := by
          cases List.mem_cons.mp hmem with
          | inl h => exact absurd (by injection h with h2; exact h2.symm) hj
          | inr h => exact h
        have hc2' : causalFrom tasks false rest = true := by
          simpa [hnone] using hc2
        simp [List.filterMap_cons, unitResult, hnone, ih hmem' hc2']
    | stopU j => simp [isWaiter] at hc1
    | coordU => simp [isWaiter] at hc1

/-- `waitResult` under the hypotheses of `head_filterMap_of_unique`. -/
theorem waitResult_of_unique {tasks : List TaskSpec} {s : Sched} {i : Nat} {E : GoErr}
    (hres : startUnitResultAt tasks i = some E)
    (hothers : ∀ j, j ≠ i → startUnitResultAt tasks j = none)
    (hmem : UnitId.startU i ∈ s.order)
    (hc : causalOrder tasks s.order = true) :
    waitResult tasks s = some E :=
  head_filterMap_of_unique tasks s i E hres hothers s.order hmem hc

/-- A task whose start goroutine returns a non-nil error makes the run
cancel the shared signal (under any trigger). -/
theorem cancelRequested_of_startErr {tasks : List TaskSpec} {i : Nat} {E : GoErr}
    (trigger : Trigger) (hres : startUnitResultAt tasks i = some E) :
    cancelRequested tasks trigger = true := by
  unfold startUnitResultAt at hres
  cases ht : tasks[i]? with
  | none => rw [ht] at hres; cases hres
  | some t =>
    rw [ht] at hres
    have hres' : startUnitResult t = some E := hres
    unfold cancelRequested
    rw [Bool.or_eq_true]
    right
    rw [List.any_eq_true]
    refine ⟨t, ?_, ?_⟩
    · rcases List.getElem?_eq_some_iff.mp ht with ⟨hlt, hget⟩
      exact hget ▸ List.getElem_mem hlt
    · show (startUnitResult t).isSome = true
      rw [hres']
      rfl

/-- When every task's UUID generation succeeds, the run's `OnStop`
invocations are exactly the registered task names. -/
theorem flatMap_invokes_of_all_uuidOk :
    ∀ tasks : List TaskSpec, (∀ t ∈ tasks, t.uuidOk = true) →
      tasks.flatMap stopUnitInvokes = tasks.map TaskSpec.name := by
  intro tasks
  induction tasks with
  | nil => intro _; rfl
  | cons a l ih =>
    intro h
    have ha : a.uuidOk = true := h a (List.mem_cons_self a l)
    have hl := ih (fun t ht => h t (List.mem_cons_of_mem a ht))
    simp [stopUnitInvokes, ha, hl]

/-- A task with successful UUID generation has its name among the run's
`OnStop` invocations. -/
theorem name_mem_flatMap_invokes {tasks : List TaskSpec} {t : TaskSpec}
    (ht : t ∈ tasks) (hu : t.uuidOk = true) :
    t.name ∈ tasks.flatMap stopUnitInvokes := by
  rw [List.mem_flatMap]
  exact ⟨t, ht, by simp [stopUnitInvokes, hu]⟩

/-- Every `OnStop` invocation target is the name of a registered task. -/
theorem mem_name_of_mem_flatMap (tasks : List TaskSpec) (x : String)
    (hx : x ∈ tasks.flatMap stopUnitInvokes) : x ∈ tasks.map TaskSpec.name := by
  rcases List.mem_flatMap.mp hx with ⟨t, ht, hxt⟩
  unfold stopUnitInvokes at hxt
  by_cases hu : t.uuidOk
  · rw [if_pos hu] at hxt
    rw [List.mem_singleton] at hxt
    subst hxt
    exact List.mem_map_of_mem TaskSpec.name ht
  · rw [if_neg hu] at hxt
    exact absurd hxt (List.not_mem_nil _)

/-- With pairwise-distinct task names, no task's `OnStop` is invoked
more than once in a run. -/
theorem count_flatMap_invokes_le_one :
    ∀ tasks : List TaskSpec, (tasks.map TaskSpec.name).Nodup →
      ∀ nm, (tasks.flatMap stopUnitInvokes).count nm ≤ 1 := by
  intro tasks
  induction tasks with
  | nil => intro _ nm; simp
  | cons a l ih =>
    intro hnd nm
    rw [List.map_cons, List.nodup_cons] at hnd
    obtain ⟨hna, hndl⟩ := hnd
    rw [List.flatMap_cons, List.count_append]
    by_cases h : nm = a.name
    · have h2 : (l.flatMap stopUnitInvokes).count nm = 0 := by
        rw [List.count_eq_zero]
        intro hmem
        exact hna (h ▸ mem_name_of_mem_flatMap l nm hmem)
      have h1 : (stopUnitInvokes a).count nm ≤ 1 := by
        have hlen : (stopUnitInvokes a).length ≤ 1 := by
          unfold stopUnitInvokes
          split <;> simp
        exact le_trans (List.count_le_length nm (stopUnitInvokes a)) hlen
      omega
    · have h1 : (stopUnitInvokes a).count nm = 0 := by
        rw [List.count_eq_zero]
        unfold stopUnitInvokes
        split
        · rw [List.mem_singleton]
          exact h
        · exact List.not_mem_nil _
      have h2 := ih hndl nm
      omega

/-- `Stop` is idempotent on the `Brokkr` state. -/
theorem stop_state_idem (c : Brokkr) : ((c.Stop).1.Stop).1 = (c.Stop).1 := by
  unfold Brokkr.Stop
  by_cases h : c.mainCtxInitialized <;> simp [h]

/-- The coordination goroutine only ever returns nil or
`context.Canceled`. -/
theorem coord_result_canceled {s : Sched} {e : GoErr}
    (h : coordUnitResult s = some e) : errorsIsCanceled e = true := by
  unfold coordUnitResult at h
  by_cases hss : s.coordSawSignal
  · rw [if_pos hss] at h
    cases h
  · rw [if_neg hss] at h
    cases h
    rfl

/-! ## Concrete tasks and schedules used to instantiate the theorems -/

/-- A task that starts and stops cleanly. -/
def taskClean : TaskSpec := ⟨"clean", false, none, none, true⟩

/-- A critical task whose `OnStart` fails with an ordinary error. -/
def taskCritFail : TaskSpec := ⟨"critfail", true, some (GoErr.custom 3 false), none, true⟩

/-- A critical task whose `OnStart` fails with `context.Canceled`. -/
def taskCritCanc : TaskSpec := ⟨"critcanc", true, some GoErr.canceled, none, true⟩

/-- A non-critical task whose `OnStart` fails with an ordinary error. -/
def taskNonCritFail : TaskSpec := ⟨"softfail", false, some (GoErr.custom 5 false), none, true⟩

/-- A task whose `OnStop` fails with an ordinary error. -/
def taskStopFail : TaskSpec := ⟨"stopfail", false, none, some (GoErr.custom 1 false), true⟩

/-- A task whose stop goroutine fails to generate its UUID. -/
def taskNoUUID : TaskSpec := ⟨"nouuid", false, none, none, false⟩

/-- A clean task named alpha. -/
def taskAlpha : TaskSpec := ⟨"alpha", false, none, none, true⟩

/-- A clean task named beta. -/
def taskBeta : TaskSpec := ⟨"beta", false, none, none, true⟩

/-! ## The claims -/

/-- C1: for every configuration of tasks, when shutdown is triggered by
an OS termination signal or by an explicit `Stop()` call (so the shared
cancellation signal fires) and no start goroutine or stop goroutine
returns a non-cancellation error, `Start()` returns nil: a
context-cancelled condition reaching `TaskErrorGroup.Wait()` is filtered
out by the `errors.Is(err, context.Canceled)` guard and never surfaces
as the result. -/
theorem C1_clean_external_shutdown_returns_nil (tasks : List TaskSpec) (s : Sched)
    (trigger : Trigger) (htr : trigger ≠ Trigger.noExternal)
    (hstart : ∀ i e, startUnitResultAt tasks i = some e → errorsIsCanceled e = true)
    (hstop : ∀ i e, stopUnitResultAt tasks i = some e → errorsIsCanceled e = true) :
    cancelRequested tasks trigger = true ∧ startReturn tasks s = none := by
  constructor
  · cases trigger with
    | noExternal => exact absurd rfl htr
    | signalled => rfl
    | explicitStop => rfl
  · apply startReturn_none_of_all_canceled
    intro u hu e hue
    cases u with
    | startU i => exact hstart i e hue
    | stopU i => exact hstop i e hue
    | coordU => exact coord_result_canceled hue

/-- C1 witness: one clean task, shutdown by OS signal, coordination
goroutine returning first. -/
theorem C1_witness :
    cancelRequested [taskClean] Trigger.signalled = true ∧
    startReturn [taskClean] ⟨[UnitId.coordU, UnitId.startU 0, UnitId.stopU 0], true⟩ = none :=
  C1_clean_external_shutdown_returns_nil [taskClean]
    ⟨[UnitId.coordU, UnitId.startU 0, UnitId.stopU 0], true⟩ Trigger.signalled
    (by decide)
    (fun i e h => by
      cases i with
      | zero => simp [startUnitResultAt, startUnitResult, taskClean] at h
      | succ n => simp [startUnitResultAt] at h)
    (fun i e h => by
      cases i with
      | zero => simp [stopUnitResultAt, stopUnitResult, taskClean] at h
      | succ n => simp [stopUnitResultAt] at h)

/-- C2: a critical task whose `OnStart` returns a non-nil,
non-cancellation error `E` — and which is the run's only submitted start
error, as forced by errgroup's first-error rule when nothing else fails
— makes `Start()` return `E`, cancels the shared signal, and every
task's stop goroutine is thereby unblocked (each one with a successful
UUID generation goes on to invoke its `OnStop`).  The completion order
is constrained only by causality (`causalOrder`): waiters cannot finish
before the group context is cancelled. -/
theorem C2_critical_start_failure_surfaces (tasks : List TaskSpec) (s : Sched) (i : Nat)
    (t : TaskSpec) (E : GoErr)
    (ht : tasks[i]? = some t)
    (hcrit : IsCriticalToStop t = true)
    (hE : t.startErr = some E)
    (hnc : errorsIsCanceled E = false)
    (hothers : ∀ j, j ≠ i → startUnitResultAt tasks j = none)
    (hmem : UnitId.startU i ∈ s.order)
    (hc : causalOrder tasks s.order = true) :
    startReturn tasks s = some E ∧
    cancelRequested tasks Trigger.noExternal = true ∧
    ∀ t2 ∈ tasks, t2.uuidOk = true → t2.name ∈ runInvoked tasks Trigger.noExternal := by
  have hres : startUnitResultAt tasks i = some E := by
    simp [startUnitResultAt, ht, startUnitResult, hE, hcrit]
  have hw : waitResult tasks s = some E := waitResult_of_unique hres hothers hmem hc
  refine ⟨?_, cancelRequested_of_startErr _ hres, ?_⟩
  · unfold startReturn
    rw [hw]
    simp [hnc]
  · intro t2 ht2 hu2
    unfold runInvoked
    rw [if_pos (cancelRequested_of_startErr _ hres)]
    exact name_mem_flatMap_invokes ht2 hu2

/-- C2 witness: a failing critical task next to a clean task, with a
causal completion order. -/
theorem C2_witness :
    startReturn [taskCritFail, taskClean]
      ⟨[UnitId.startU 0, UnitId.startU 1, UnitId.coordU, UnitId.stopU 0, UnitId.stopU 1],
        false⟩ = some (GoErr.custom 3 false) ∧
    cancelRequested [taskCritFail, taskClean] Trigger.noExternal = true ∧
    ∀ t2 ∈ [taskCritFail, taskClean], t2.uuidOk = true →
      t2.name ∈ runInvoked [taskCritFail, taskClean] Trigger.noExternal :=
  C2_critical_start_failure_surfaces [taskCritFail, taskClean]
    ⟨[UnitId.startU 0, UnitId.startU 1, UnitId.coordU, UnitId.stopU 0, UnitId.stopU 1], false⟩
    0 taskCritFail (GoErr.custom 3 false) (by decide) (by decide) (by decide) (by decide)
    (fun j hj => by
      match j with
      | 0 => exact absurd rfl hj
      | 1 => simp [startUnitResultAt, startUnitResult, taskClean]
      | Nat.succ (Nat.succ n) => simp [startUnitResultAt])
    (by decide) (by decide)

/-- C3: a non-critical task's `OnStart` error is discarded by its start
goroutine (which returns nil), does not cancel the shared signal, and
does not appear in `Start()`'s result: with every other potential error
source clean or cancellation-flavoured, the run still returns nil. -/
theorem C3_noncritical_start_failure_discarded (tasks : List TaskSpec) (s : Sched) (i : Nat)
    (t : TaskSpec) (E : GoErr)
    (ht : tasks[i]? = some t)
    (hcrit : IsCriticalToStop t = false)
    (hE : t.startErr = some E)
    (hothers : ∀ j, j ≠ i → startUnitResultAt tasks j = none)
    (hstop : ∀ j e, stopUnitResultAt tasks j = some e → errorsIsCanceled e = true) :
    startUnitResult t = none ∧
    cancelRequested tasks Trigger.noExternal = false ∧
    startReturn tasks s = none := by
  have hres : startUnitResult t = none := by
    simp [startUnitResult, hE, hcrit]
  have hallstart : ∀ j, startUnitResultAt tasks j = none := by
    intro j
    by_cases hj : j = i
    · subst hj
      simp [startUnitResultAt, ht, hres]
    · exact hothers j hj
  have hmemfalse : ∀ t2 ∈ tasks, (startUnitResult t2).isSome = false := by
    intro t2 ht2
    rcases List.mem_iff_getElem?.mp ht2 with ⟨j, hj⟩
    have hja := hallstart j
    unfold startUnitResultAt at hja
    rw [hj] at hja
    have hja' : startUnitResult t2 = none := hja
    rw [hja']
    rfl
  refine ⟨hres, ?_, ?_⟩
  · unfold cancelRequested
    simp only [bne_self_eq_false, Bool.false_or]
    rw [List.any_eq_false]
    intro t2 ht2
    simp [hmemfalse t2 ht2]
  · apply startReturn_none_of_all_canceled
    intro u hu e hue
    cases u with
    | startU j =>
      have hue' : startUnitResultAt tasks j = some e := hue
      rw [hallstart j] at hue'
      cases hue'
    | stopU j => exact hstop j e hue
    | coordU => exact coord_result_canceled hue

/-- C3 witness: one failing non-critical task, later explicit `Stop()`
(the coordination goroutine returns `context.Canceled` first). -/
theorem C3_witness :
    startUnitResult taskNonCritFail = none ∧
    cancelRequested [taskNonCritFail] Trigger.noExternal = false ∧
    startReturn [taskNonCritFail]
      ⟨[UnitId.coordU, UnitId.startU 0, UnitId.stopU 0], false⟩ = none :=
  C3_noncritical_start_failure_discarded [taskNonCritFail]
    ⟨[UnitId.coordU, UnitId.startU 0, UnitId.stopU 0], false⟩
    0 taskNonCritFail (GoErr.custom 5 false) (by decide) (by decide) (by decide)
    (fun j hj => by
      match j with
      | 0 => exact absurd rfl hj
      | Nat.succ n => simp [startUnitResultAt])
    (fun j e h => by
      cases j with
      | zero => simp [stopUnitResultAt, stopUnitResult, taskNonCritFail] at h
      | succ n => simp [stopUnitResultAt] at h)

/-- C10: a critical task whose `OnStart` fails with an error `err` for
which `errors.Is(err, context.Canceled)` holds (and which is the run's
only submitted start error) shuts the whole orchestrator down, yet
`Start()` returns nil: the winning error is filtered by the
`errors.Is(err, context.Canceled)` guard like a graceful cancellation. -/
theorem C10_critical_canceled_error_filtered (tasks : List TaskSpec) (s : Sched) (i : Nat)
    (t : TaskSpec) (E : GoErr)
    (ht : tasks[i]? = some t)
    (hcrit : IsCriticalToStop t = true)
    (hE : t.startErr = some E)
    (hcanc : errorsIsCanceled E = true)
    (hothers : ∀ j, j ≠ i → startUnitResultAt tasks j = none)
    (hmem : UnitId.startU i ∈ s.order)
    (hc : causalOrder tasks s.order = true) :
    cancelRequested tasks Trigger.noExternal = true ∧ startReturn tasks s = none := by
  have hres : startUnitResultAt tasks i = some E := by
    simp [startUnitResultAt, ht, startUnitResult, hE, hcrit]
  refine ⟨cancelRequested_of_startErr _ hres, ?_⟩
  have hw : waitResult tasks s = some E := waitResult_of_unique hres hothers hmem hc
  unfold startReturn
  rw [hw]
  simp [hcanc]

/-- C10 witness: a critical task failing with `context.Canceled`
itself. -/
theorem C10_witness :
    cancelRequested [taskCritCanc] Trigger.noExternal = true ∧
    startReturn [taskCritCanc]
      ⟨[UnitId.startU 0, UnitId.coordU, UnitId.stopU 0], false⟩ = none :=
  C10_critical_canceled_error_filtered [taskCritCanc]
    ⟨[UnitId.startU 0, UnitId.coordU, UnitId.stopU 0], false⟩
    0 taskCritCanc GoErr.canceled (by decide) (by decide) (by decide) (by decide)
    (fun j hj => by
      match j with
      | 0 => exact absurd rfl hj
      | Nat.succ n => simp [startUnitResultAt])
    (by decide) (by decide)

/-- C4: evaluation of the stop context built by the stop goroutine
(`context.WithTimeout(c.createChildContext(...), c.stopTimeout)`, lines
109–112).  The claim says the context reports deadline-exceeded at or
after `stopTimeout` for every trigger.  Because the child is derived
from `c.mainContext`, which is *already cancelled* whenever shutdown
came from `Stop()` or an OS signal, the context is born cancelled in
those paths and reports `context.Canceled` immediately — never
deadline-exceeded.  Only in the critical-start-failure path (where
`errgroup` cancels the *group* context but the main context stays live)
does the deadline behave as claimed.  Concrete evaluation: `Stop()` at
time 0, cancellation observed at 0, `stopTimeout = 5`, sampled at times
2 and 7. -/
theorem C4_stop_context_eval :
    stopCtxDeadline 0 5 = 5 ∧
    stopCtxErr Trigger.explicitStop 0 0 5 7 = some GoErr.canceled ∧
    stopCtxErr Trigger.explicitStop 0 0 5 7 ≠ some GoErr.deadlineExceeded ∧
    stopCtxErr Trigger.signalled 0 0 5 2 = some GoErr.canceled ∧
    stopCtxErr Trigger.noExternal 0 0 5 2 = none ∧
    stopCtxErr Trigger.noExternal 0 0 5 7 = some GoErr.deadlineExceeded := by
  decide

/-- C5: evaluation of the name carried by each task's stop context.
Line 110 of `brokkr.go` calls `t.GetName()` on the shared `range`
variable (Go 1.20/1.21 semantics) instead of the per-iteration copy
`task`, so with tasks alpha and beta, *both* stop contexts carry the
name beta: alpha's stop context does not carry alpha's own name.  With
a single task the slip is invisible. -/
theorem C5_stop_context_name_eval :
    runStopCtxNames [taskAlpha, taskBeta] = [("alpha", "beta"), ("beta", "beta")] ∧
    stopCtxNameOf [taskAlpha, taskBeta] = some "beta" ∧
    stopCtxNameOf [taskAlpha, taskBeta] ≠ some "alpha" ∧
    runStopCtxNames [taskAlpha] = [("alpha", "alpha")] := by
  refine ⟨rfl, rfl, by decide, rfl⟩

/-- C6 counterexample: a task whose stop goroutine fails to generate its
UUID has its `OnStop` invoked zero times even though shutdown was
triggered (here by an explicit `Stop()`), refuting the unconditional
exactly-once invariant. -/
theorem C6_counterexample :
    cancelRequested [taskNoUUID] Trigger.explicitStop = true ∧
    (runInvoked [taskNoUUID] Trigger.explicitStop).count "nouuid" = 0 ∧
    (runInvoked [taskNoUUID] Trigger.explicitStop).count "nouuid" ≠ 1 := by
  decide

/-- C6 (amended): once shutdown fires, every task whose UUID generation
succeeds has its `OnStop` invoked exactly once — the run's invocation
list is exactly the registered names — independent of which trigger (or
combination of triggers) caused the shutdown; a task whose UUID
generation fails has `OnStop` invoked zero times and the failure
submitted as its stop goroutine's error. -/
theorem C6_stop_invoked_once_if_uuidOk (tasks : List TaskSpec) (trigger trigger' : Trigger)
    (hcanc : cancelRequested tasks trigger = true) :
    ((∀ t ∈ tasks, t.uuidOk = true) →
      runInvoked tasks trigger = tasks.map TaskSpec.name) ∧
    (∀ t : TaskSpec, t.uuidOk = false →
      stopUnitInvokes t = [] ∧ stopUnitResult t = some GoErr.uuidFailure) ∧
    (cancelRequested tasks trigger' = true →
      runInvoked tasks trigger = runInvoked tasks trigger') := by
  refine ⟨?_, ?_, ?_⟩
  · intro hall
    unfold runInvoked
    rw [if_pos hcanc]
    exact flatMap_invokes_of_all_uuidOk tasks hall
  · intro t hu
    constructor
    · unfold stopUnitInvokes
      rw [if_neg (by simp [hu])]
    · unfold stopUnitResult
      rw [if_neg (by simp [hu])]
  · intro hcanc'
    unfold runInvoked
    rw [if_pos hcanc, if_pos hcanc']

/-- C6 witness: one clean task, shutdown by explicit `Stop()` compared
with shutdown by signal. -/
theorem C6_witness :
    ((∀ t ∈ [taskClean], t.uuidOk = true) →
      runInvoked [taskClean] Trigger.explicitStop = [taskClean].map TaskSpec.name) ∧
    (∀ t : TaskSpec, t.uuidOk = false →
      stopUnitInvokes t = [] ∧ stopUnitResult t = some GoErr.uuidFailure) ∧
    (cancelRequested [taskClean] Trigger.signalled = true →
      runInvoked [taskClean] Trigger.explicitStop = runInvoked [taskClean] Trigger.signalled) :=
  C6_stop_invoked_once_if_uuidOk [taskClean] Trigger.explicitStop Trigger.signalled (by decide)

/-- C7: `Stop()` always returns nil; cancelling the main context is
idempotent, so any number of `Stop()` calls (from any interleaving,
since each is the same state-idempotent flag write) leaves the `Brokkr`
in the state of a single call, never re-runs a task's `OnStop` (with
distinct task names, no name is invoked more than once per run), and
the run outcome therefore depends only on the first triggering cause. -/
theorem C7_stop_nil_idempotent :
    (∀ c : Brokkr, (c.Stop).2 = none) ∧
    (∀ c : Brokkr, ((c.Stop).1.Stop).1 = (c.Stop).1) ∧
    (∀ c : Brokkr, ∀ n : Nat, 1 ≤ n →
      (fun b => (Brokkr.Stop b).1)^[n] c = (Brokkr.Stop c).1) ∧
    (∀ tasks : List TaskSpec, ∀ trigger : Trigger,
      (tasks.map TaskSpec.name).Nodup →
      ∀ nm, (runInvoked tasks trigger).count nm ≤ 1) := by
  refine ⟨fun c => rfl, stop_state_idem, ?_, ?_⟩
  · intro c n hn
    induction n with
    | zero => exact absurd hn (by decide)
    | succ m ih =>
      rcases Nat.eq_zero_or_pos m with hm | hm
      · subst hm
        simp
      · rw [Function.iterate_succ_apply', ih hm]
        exact stop_state_idem c
  · intro tasks trigger hnd nm
    unfold runInvoked
    split
    · exact count_flatMap_invokes_le_one tasks hnd nm
    · simp

/-- C7 witness: three consecutive `Stop()` calls on a fresh `Brokkr`
equal one, and a one-task run never invokes its `OnStop` twice. -/
theorem C7_witness :
    (fun b => (Brokkr.Stop b).1)^[3] (NewBrokkr []) = (Brokkr.Stop (NewBrokkr [])).1 ∧
    (runInvoked [taskClean] Trigger.explicitStop).count "clean" ≤ 1 :=
  ⟨C7_stop_nil_idempotent.2.2.1 (NewBrokkr []) 3 (by decide),
   C7_stop_nil_idempotent.2.2.2 [taskClean] Trigger.explicitStop (by decide) "clean"⟩

/-- C8 counterexample: under an explicit `Stop()`, the coordination
goroutine's `context.Canceled` return can be the first submission to the
errgroup's single error slot; the stop goroutine's genuine
(non-cancellation) error, submitted later, is then discarded and
`Start()` returns nil — not that error, contradicting the claim that
the first non-cancellation stop-unit error becomes the result. -/
theorem C8_counterexample :
    stopUnitResult taskStopFail = some (GoErr.custom 1 false) ∧
    errorsIsCanceled (GoErr.custom 1 false) = false ∧
    startReturn [taskStopFail]
      ⟨[UnitId.coordU, UnitId.startU 0, UnitId.stopU 0], false⟩ = none ∧
    startReturn [taskStopFail]
      ⟨[UnitId.coordU, UnitId.startU 0, UnitId.stopU 0], false⟩ ≠
      some (GoErr.custom 1 false) := by
  decide

/-- C8 (amended): the first non-nil error returned by *any* goroutine —
the coordination goroutine's context-cancelled return included — wins
the errgroup's single error slot and every later submission is
discarded (the run result is insensitive to everything after the first
error); `Start()` returns the winner when it is not
cancellation-flavoured and nil otherwise, so a stop-unit or
critical-start error surfaces only when it is the first submission
overall; a UUID-generation fault is folded into this same path as the
stop goroutine's returned error. -/
theorem C8_first_submission_wins (tasks : List TaskSpec) :
    (∀ s : Sched, ∀ E : GoErr, waitResult tasks s = some E →
      errorsIsCanceled E = false → startReturn tasks s = some E) ∧
    (∀ t : TaskSpec, t.uuidOk = false → stopUnitResult t = some GoErr.uuidFailure) ∧
    (∀ b : Bool, ∀ pre post post' : List UnitId,
      pre.filterMap (unitResult tasks ⟨pre ++ post, b⟩) ≠ [] →
      startReturn tasks ⟨pre ++ post, b⟩ = startReturn tasks ⟨pre ++ post', b⟩) := by
  refine ⟨?_, ?_, ?_⟩
  · intro s E hw hnc
    unfold startReturn
    rw [hw]
    simp [hnc]
  · intro t hu
    unfold stopUnitResult
    rw [if_neg (by simp [hu])]
  · intro b pre post post' hne
    have hf : ∀ l l' : List UnitId, unitResult tasks ⟨l, b⟩ = unitResult tasks ⟨l', b⟩ :=
      fun l l' => funext fun u => by cases u <;> rfl
    unfold startReturn waitResult
    rw [List.filterMap_append, List.filterMap_append]
    rw [show unitResult tasks ⟨pre ++ post', b⟩ = unitResult tasks ⟨pre ++ post, b⟩ from
      hf _ _]
    cases hp : pre.filterMap (unitResult tasks ⟨pre ++ post, b⟩) with
    | nil => exact absurd hp hne
    | cons a l => simp [hp]

/-- C8 witness: the stop goroutine's error returned first does surface;
a UUID fault is a stop-unit submission; and the result ignores
completions after the first error. -/
theorem C8_witness :
    startReturn [taskStopFail]
      ⟨[UnitId.stopU 0, UnitId.coordU, UnitId.startU 0], false⟩ =
      some (GoErr.custom 1 false) ∧
    stopUnitResult taskNoUUID = some GoErr.uuidFailure ∧
    startReturn [taskStopFail]
      ⟨[UnitId.stopU 0] ++ [UnitId.coordU, UnitId.startU 0], false⟩ =
      startReturn [taskStopFail]
        ⟨[UnitId.stopU 0] ++ [UnitId.startU 0, UnitId.coordU], false⟩ :=
  ⟨(C8_first_submission_wins [taskStopFail]).1
      ⟨[UnitId.stopU 0, UnitId.coordU, UnitId.startU 0], false⟩
      (GoErr.custom 1 false) (by decide) (by decide),
   (C8_first_submission_wins [taskNoUUID]).2.1 taskNoUUID (by decide),
   (C8_first_submission_wins [taskStopFail]).2.2 false [UnitId.stopU 0]
      [UnitId.coordU, UnitId.startU 0] [UnitId.startU 0, UnitId.coordU] (by decide)⟩

/-- C9: a `Brokkr` built with no options has `stopTimeout` of 60
seconds and the signal set {interrupt, terminate, quit}
(`SIGINT`, `SIGTERM`, `SIGQUIT`); `SetForceStopTimeout d` replaces only
`stopTimeout`, leaving the signal set, the task list and the
cancellation root untouched. -/
theorem C9_defaults_and_setForceStopTimeout :
    (NewBrokkr []).stopTimeout = 60 * timeSecond ∧
    (∀ x : Sig, x ∈ (NewBrokkr []).signals ↔
      (x = Sig.SIGINT ∨ x = Sig.SIGTERM ∨ x = Sig.SIGQUIT)) ∧
    (∀ (d : Nat) (b : Brokkr),
      (SetForceStopTimeout d b).stopTimeout = d ∧
      (SetForceStopTimeout d b).signals = b.signals ∧
      (SetForceStopTimeout d b).backgroundTasks = b.backgroundTasks ∧
      (SetForceStopTimeout d b).mainCtxInitialized = b.mainCtxInitialized ∧
      (SetForceStopTimeout d b).mainCtxCancelled = b.mainCtxCancelled) := by
  refine ⟨rfl, ?_, ?_⟩
  · intro x
    cases x <;> simp [NewBrokkr]
  · intro d b
    exact ⟨rfl, rfl, rfl, rfl, rfl⟩
